import Mathlib

/-!
Shallow embedding of the NBA sleeper dashboard's lock-in engine and weekly
lineup state machine, translated from the TypeScript sources:
`src/dashboard/src/lib/matchupsUtils.ts`, `src/dashboard/src/lib/analytics.ts`,
the `useMatchupsStorage` hook and the `WeeklyMatchupView` component.

Modelling conventions: JavaScript numbers are embedded as `ℚ` (fantasy points,
minutes, probabilities) or `ℤ` (week numbers, versions, roster ids); date
strings are embedded as `ℤ` timestamps (the code only compares dates for
equality and sorts them through `new Date(d).getTime()`); fallible lookups
return `Option`.  All definitions are executable.
-/

/-- One entry of a player's weekly `games` array (type `WeekGame` of the app).
Built in `buildPlayerWeekLockIn` from played games and the schedule feed. -/
structure WeekGame where
  date : ℤ
  fpts : ℚ
  opponent : String
  isPlayed : Bool
  isLocked : Bool
  deriving DecidableEq

/-- A recorded lock decision (type `LockInDecision` of the app): the chosen
game's date and score, the wall-clock lock time and the auto-lock flag. -/
structure LockInDecision where
  gameDate : ℤ
  gameFpts : ℚ
  lockedAt : String
  isAutoLocked : Bool
  deriving DecidableEq

/-- The `{ date, fpts }` pair stored in the `optimalGame` field. -/
structure OptimalRef where
  date : ℤ
  fpts : ℚ
  deriving DecidableEq

/-- The four lock-quality classifications. -/
inductive LockQuality where
  | optimal
  | good
  | suboptimal
  | poor
  deriving DecidableEq

/-- One player's state for one week inside a matchup record
(type `PlayerWeekLockIn` of the app). -/
structure PlayerWeekLockIn where
  sleeperId : String
  playerName : String
  nbaTeam : String
  position : String
  week : ℤ
  games : List WeekGame
  lockedGame : Option LockInDecision
  optimalGame : Option OptimalRef
  lockQuality : Option LockQuality
  deriving DecidableEq

/-- Result tag of a week's matchup. -/
inductive MatchupResult where
  | win
  | loss
  | pending
  deriving DecidableEq

/-- One fantasy week's full matchup state (type `WeekMatchup` of the app).
The first ten entries of each player list are the starters. -/
structure WeekMatchup where
  week : ℤ
  seasonYear : String
  myTeamRosterId : ℤ
  opponentRosterId : ℤ
  myTeamName : String
  opponentTeamName : String
  myPlayers : List PlayerWeekLockIn
  opponentPlayers : List PlayerWeekLockIn
  myTotalLocked : ℚ
  opponentTotalLocked : ℚ
  myOptimalTotal : ℚ
  opponentOptimalTotal : ℚ
  result : MatchupResult
  deriving DecidableEq

/-- The `config` object of the persisted storage root. -/
structure MatchupsConfig where
  myTeamRosterId : Option ℤ
  deriving DecidableEq

/-- The persisted storage root (type `MatchupsStorage` of the app). -/
structure MatchupsStorage where
  version : ℤ
  config : MatchupsConfig
  history : List WeekMatchup
  lastUpdated : String
  deriving DecidableEq

/-- A raw parsed JSON document handed to `migrateStorage`: each field of the
storage root may be present or absent (`Option`).  `migrateStorage` receives
`unknown` data; a non-object / null input is modelled as `none` at the call
site. -/
structure RawStorageDoc where
  version : Option ℤ
  config : Option MatchupsConfig
  history : Option (List WeekMatchup)
  lastUpdated : Option String
  deriving DecidableEq

/-- One raw game log row (type `Game` of the app), restricted to the fields
the engine reads: owning player's week, date, minutes, fantasy points and the
matchup label. -/
structure Game where
  week : ℤ
  date : ℤ
  minutes : ℚ
  fpts : ℚ
  matchup : String
  deriving DecidableEq

/-- Per-week derived statistics (type `WeeklyStats` of the app), restricted to
the fields the embedded functions read. -/
structure WeeklyStats where
  week : ℤ
  games : ℚ
  maxFpts : ℚ
  minFpts : ℚ
  avgFpts : ℚ
  avgMinutes : ℚ
  gamesList : List Game
  deriving DecidableEq

/-- Per-player analytics (type `PlayerAnalytics` of the app), restricted to
the fields read by the matchup state machine and the advisory engine. -/
structure PlayerAnalytics where
  player : String
  sleeper_id : String
  nba_team : String
  fantasy_team : String
  position : String
  expectedLockin : ℚ
  weeklyStats : List WeeklyStats
  games : List Game
  deriving DecidableEq

/-- One scheduled upcoming game of the schedule feed (type `GameSchedule`). -/
structure GameSchedule where
  date : ℤ
  opponent : String
  home : Bool
  deriving DecidableEq

/-- The schedule feed (type `NBASchedule`), restricted to the
`remainingThisWeek` map, embedded as an association list keyed by NBA team. -/
structure NBASchedule where
  remainingThisWeek : List (String × List GameSchedule)
  deriving DecidableEq

/-- Lookup `schedule.remainingThisWeek[team] || []`. -/
def NBASchedule.remainingFor (s : NBASchedule) (team : String) : List GameSchedule :=
  ((s.remainingThisWeek.find? (fun kv => kv.1 = team)).map (·.2)).getD []

/-! ## Slot Model (`matchupsUtils.ts`) -/

/-- `POSITION_SLOTS` of `matchupsUtils.ts`: the ten ordered lineup slots. -/
def POSITION_SLOTS : List String :=
  ["PG", "SG", "G", "SF", "PF", "F", "C", "UTIL", "UTIL", "UTIL"]

/-- `POSITION_ELIGIBILITY` of `matchupsUtils.ts`: which player positions can
fill which slot. -/
def POSITION_ELIGIBILITY (slot : String) : List String :=
  if slot = "PG" then ["PG"]
  else if slot = "SG" then ["SG"]
  else if slot = "G" then ["PG", "SG", "G"]
  else if slot = "SF" then ["SF"]
  else if slot = "PF" then ["PF"]
  else if slot = "F" then ["SF", "PF", "F"]
  else if slot = "C" then ["C"]
  else if slot = "UTIL" then ["PG", "SG", "G", "SF", "PF", "F", "C"]
  else []

/-- `canFillSlot` of `matchupsUtils.ts`: true iff some player position is in
the slot's eligible set. -/
def canFillSlot (playerPositions : List String) (slot : String) : Bool :=
  playerPositions.any (fun pos => (POSITION_ELIGIBILITY slot).contains pos)

/-- Split a character list at every occurrence of `sep` (the semantics of the
JS `String.prototype.split` with a one-character separator). -/
def splitOnChar (sep : Char) (l : List Char) : List (List Char) :=
  match l with
  | [] => [[]]
  | c :: rest =>
    let r := splitOnChar sep rest
    if c = sep then [] :: r
    else match r with
      | [] => [[c]]
      | h :: t => (c :: h) :: t

/-- Whitespace test used by the trim below. -/
def isWS (c : Char) : Bool := c = ' ' ∨ c = '\t' ∨ c = '\n' ∨ c = '\r'

/-- Strip leading and trailing whitespace (the JS `String.prototype.trim`). -/
def trimChars (l : List Char) : List Char :=
  ((l.dropWhile isWS).reverse.dropWhile isWS).reverse

/-- `parsePositions` of `matchupsUtils.ts`: split a position string on `/`,
trim and uppercase each part; empty or `N/A` input gives the empty list. -/
def parsePositions (positionStr : String) : List String :=
  if positionStr = "" ∨ positionStr = "N/A" then []
  else ((splitOnChar '/' positionStr.data).map
    (fun cs => String.mk ((trimChars cs).map Char.toUpper)))

/-! ## Optimal game and lock quality (`matchupsUtils.ts`) -/

/-- `getOptimalGame` of `matchupsUtils.ts`: the highest scoring game among the
played games with positive fantasy points, `none` when there is no such game.
The JS `reduce` keeps the earlier of two equally scored games. -/
def getOptimalGame (games : List WeekGame) : Option WeekGame :=
  match games.filter (fun g => g.isPlayed && decide (0 < g.fpts)) with
  | [] => none
  | h :: t => some (t.foldl (fun best game => if best.fpts < game.fpts then game else best) h)

/-- The `{ date, fpts }` projection of the optimal game, as stored in the
`optimalGame` field by `recordLock`, `updatePlayerGames` and
`buildPlayerWeekLockIn`. -/
def optimalPairOf (games : List WeekGame) : Option OptimalRef :=
  (getOptimalGame games).map (fun g => ⟨g.date, g.fpts⟩)

/-- `calculateLockQuality` of `matchupsUtils.ts`. -/
def calculateLockQuality (lockedFpts optimalFpts : ℚ) : LockQuality :=
  if optimalFpts ≤ lockedFpts then .optimal
  else
    let difference := optimalFpts - lockedFpts
    let percentDiff := difference / optimalFpts * 100
    if percentDiff ≤ 5 then .good
    else if percentDiff ≤ 15 then .suboptimal
    else .poor

/-- Stable insertion of a game into a date-sorted list (insert after equal
dates), the auxiliary step of the date sort below. -/
def insertByDate (a : WeekGame) : List WeekGame → List WeekGame
  | [] => [a]
  | b :: l => if b.date ≤ a.date then b :: insertByDate a l else a :: b :: l

/-- The stable ascending sort by date used on the rebuilt `games` array in
`buildPlayerWeekLockIn` (`.sort((a, b) => timeOf a - timeOf b)`). -/
def sortByDate : List WeekGame → List WeekGame
  | [] => []
  | a :: l => insertByDate a (sortByDate l)

/-- `buildPlayerWeekLockIn` of `matchupsUtils.ts`: merge the week's played
games with the scheduled-but-unplayed games, sort by date, and compute the
optimal game; the fresh record carries no lock. -/
def buildPlayerWeekLockIn (player : PlayerAnalytics) (week : ℤ)
    (nbaSchedule : Option NBASchedule) : PlayerWeekLockIn :=
  let weekStats := player.weeklyStats.find? (fun w => decide (w.week = week))
  let playedGames := (weekStats.map (·.gamesList)).getD []
  let remainingScheduled := match nbaSchedule with
    | none => []
    | some s => s.remainingFor player.nba_team
  let playedDates := playedGames.map (·.date)
  let games := sortByDate
    (playedGames.map (fun g =>
        { date := g.date, fpts := g.fpts, opponent := g.matchup,
          isPlayed := true, isLocked := false })
      ++ (remainingScheduled.filter (fun g => ¬ playedDates.contains g.date)).map (fun g =>
        { date := g.date, fpts := 0,
          opponent := (if g.home then "vs " else "@ ") ++ g.opponent,
          isPlayed := false, isLocked := false }))
  let optimal := getOptimalGame games
  { sleeperId := player.sleeper_id
    playerName := player.player
    nbaTeam := player.nba_team
    position := player.position
    week := week
    games := games
    lockedGame := none
    optimalGame := optimal.map (fun g => ⟨g.date, g.fpts⟩)
    lockQuality := none }

/-! ## Persistent store (`useMatchupsStorage` hook) -/

/-- `CURRENT_VERSION` of the storage schema. -/
def CURRENT_VERSION : ℤ := 1

/-- `getDefaultStorage`: the fresh default document.  The wall-clock ISO
timestamp written into `lastUpdated` is passed in as `now`. -/
def getDefaultStorage (now : String) : MatchupsStorage :=
  { version := CURRENT_VERSION
    config := { myTeamRosterId := none }
    history := []
    lastUpdated := now }

/-- The raw-document view of a full storage value (every field present). -/
def rawOfStorage (s : MatchupsStorage) : RawStorageDoc :=
  { version := some s.version, config := some s.config,
    history := some s.history, lastUpdated := some s.lastUpdated }

/-- `migrateStorage` of the `useMatchupsStorage` hook: null / non-object data
(`none`) yields the default document; a document already at the current
version is returned unchanged; anything else is shallow-merged over a fresh
default (present fields win) and stamped with the current version. -/
def migrateStorage (now : String) : Option RawStorageDoc → RawStorageDoc
  | none => rawOfStorage (getDefaultStorage now)
  | some storage =>
    if storage.version = some CURRENT_VERSION then storage
    else
      let dflt := rawOfStorage (getDefaultStorage now)
      { version := some CURRENT_VERSION
        config := storage.config.or dflt.config
        history := storage.history.or dflt.history
        lastUpdated := storage.lastUpdated.or dflt.lastUpdated }

/-- Select the side's player list: `m[playersKey]` for
`playersKey = isMyTeam ? 'myPlayers' : 'opponentPlayers'`. -/
def rosterOf (m : WeekMatchup) (isMyTeam : Bool) : List PlayerWeekLockIn :=
  if isMyTeam then m.myPlayers else m.opponentPlayers

/-- Write back the side's player list. -/
def setRoster (m : WeekMatchup) (isMyTeam : Bool) (players : List PlayerWeekLockIn) :
    WeekMatchup :=
  if isMyTeam then { m with myPlayers := players } else { m with opponentPlayers := players }

/-- The running locked total `reduce((sum, p) => sum + (p.lockedGame?.gameFpts || 0), 0)`. -/
def lockedTotal (players : List PlayerWeekLockIn) : ℚ :=
  players.foldl (fun sum p => sum + ((p.lockedGame.map (·.gameFpts)).getD 0)) 0

/-- The running optimal total `reduce((sum, p) => sum + (p.optimalGame?.fpts || 0), 0)`. -/
def optimalTotal (players : List PlayerWeekLockIn) : ℚ :=
  players.foldl (fun sum p => sum + ((p.optimalGame.map (·.fpts)).getD 0)) 0

/-- The per-player update applied by `recordLock` to the player whose
`sleeperId` matches: flag the chosen date in `games`, recompute the optimal
game and the lock quality, and store the decision. -/
def recordLockPlayer (sleeperId : String) (decision : LockInDecision)
    (p : PlayerWeekLockIn) : PlayerWeekLockIn :=
  if p.sleeperId ≠ sleeperId then p
  else
    let updatedGames := p.games.map (fun g => { g with isLocked := decide (g.date = decision.gameDate) })
    let optimalGame := getOptimalGame updatedGames
    let lockQuality : Option LockQuality :=
      match optimalGame with
      | none => none
      | some opt =>
        let diff := opt.fpts - decision.gameFpts
        let pctDiff := diff / opt.fpts * 100
        if diff = 0 then some .optimal
        else if pctDiff ≤ 5 then some .good
        else if pctDiff ≤ 15 then some .suboptimal
        else some .poor
    { p with
      games := updatedGames
      lockedGame := some decision
      optimalGame := optimalGame.map (fun g => ⟨g.date, g.fpts⟩)
      lockQuality := lockQuality }

/-- The per-record step of `recordLock`: update the matching player of the
requested week's record and recompute all four running totals. -/
def recordLockMatchup (week : ℤ) (sleeperId : String) (isMyTeam : Bool)
    (decision : LockInDecision) (m : WeekMatchup) : WeekMatchup :=
  if m.week ≠ week then m
  else
    let m' := setRoster m isMyTeam
      ((rosterOf m isMyTeam).map (recordLockPlayer sleeperId decision))
    { m' with
      myTotalLocked := lockedTotal m'.myPlayers
      opponentTotalLocked := lockedTotal m'.opponentPlayers
      myOptimalTotal := optimalTotal m'.myPlayers
      opponentOptimalTotal := optimalTotal m'.opponentPlayers }

/-- `recordLock` of the `useMatchupsStorage` hook. -/
def recordLock (st : MatchupsStorage) (week : ℤ) (sleeperId : String)
    (isMyTeam : Bool) (decision : LockInDecision) : MatchupsStorage :=
  { st with
    history := st.history.map (recordLockMatchup week sleeperId isMyTeam decision) }

/-- The per-player update applied by `clearLock` to the player whose
`sleeperId` matches: clear every `isLocked` flag, the decision and the
quality. -/
def clearLockPlayer (sleeperId : String) (p : PlayerWeekLockIn) : PlayerWeekLockIn :=
  if p.sleeperId ≠ sleeperId then p
  else
    { p with
      games := p.games.map (fun g => { g with isLocked := false })
      lockedGame := none
      lockQuality := none }

/-- The per-record step of `clearLock`: clear the matching player's lock in
the requested week's record and recompute the two locked totals. -/
def clearLockMatchup (week : ℤ) (sleeperId : String) (isMyTeam : Bool)
    (m : WeekMatchup) : WeekMatchup :=
  if m.week ≠ week then m
  else
    let m' := setRoster m isMyTeam
      ((rosterOf m isMyTeam).map (clearLockPlayer sleeperId))
    { m' with
      myTotalLocked := lockedTotal m'.myPlayers
      opponentTotalLocked := lockedTotal m'.opponentPlayers }

/-- `clearLock` of the `useMatchupsStorage` hook. -/
def clearLock (st : MatchupsStorage) (week : ℤ) (sleeperId : String)
    (isMyTeam : Bool) : MatchupsStorage :=
  { st with
    history := st.history.map (clearLockMatchup week sleeperId isMyTeam) }

/-- `STARTERS_COUNT`: the first ten list positions are the starters. -/
def STARTERS_COUNT : ℕ := 10

/-- Exchange the entries at positions `i` and `j` (both in bounds in every
use; out-of-bounds positions leave the list unchanged). -/
def listSwap (l : List PlayerWeekLockIn) (i j : ℕ) : List PlayerWeekLockIn :=
  match l.get? i, l.get? j with
  | some a, some b => (l.set i b).set j a
  | _, _ => l

/-- The per-record update of `swapPlayers`: validate the starter index and
the mapped bench index, then exchange the two entries of the side's list. -/
def swapInMatchup (m : WeekMatchup) (starterIndex benchIndex : ℕ)
    (isMyTeam : Bool) : WeekMatchup :=
  let players := rosterOf m isMyTeam
  let actualBenchIndex := STARTERS_COUNT + benchIndex
  if starterIndex ≥ STARTERS_COUNT then m
  else if actualBenchIndex ≥ players.length then m
  else setRoster m isMyTeam (listSwap players starterIndex actualBenchIndex)

/-- `swapPlayers` of the `useMatchupsStorage` hook: apply the swap to the
record of the given week; every other record is untouched. -/
def swapPlayers (st : MatchupsStorage) (week : ℤ) (starterIndex benchIndex : ℕ)
    (isMyTeam : Bool) : MatchupsStorage :=
  { st with
    history := st.history.map (fun m =>
      if m.week ≠ week then m
      else swapInMatchup m starterIndex benchIndex isMyTeam) }

/-! ## Sync (`matchupsUtils.ts`) -/

/-- Rebuild a player's week record from fresh data and re-apply the given
previously recorded lock (the body of the `syncPlayers` closure of
`syncMatchupWithPlayerData` after the data lookup). -/
def rebuildWithLock (playerData : PlayerAnalytics) (week : ℤ)
    (nbaSchedule : Option NBASchedule) : Option LockInDecision → PlayerWeekLockIn
  | none => buildPlayerWeekLockIn playerData week nbaSchedule
  | some d =>
    let fresh := buildPlayerWeekLockIn playerData week nbaSchedule
    { fresh with
      games := fresh.games.map (fun g => { g with isLocked := decide (g.date = d.gameDate) })
      lockedGame := some d
      lockQuality :=
        match fresh.optimalGame with
        | some opt => some (calculateLockQuality d.gameFpts opt.fpts)
        | none => fresh.lockQuality }

/-- The per-player step of `syncMatchupWithPlayerData`: look the player up in
the fresh data (by sleeper id and fantasy team), rebuild the week record from
scratch, and re-apply a previously recorded lock. -/
def syncOnePlayer (players : List PlayerAnalytics) (week : ℤ)
    (nbaSchedule : Option NBASchedule) (fantasyTeam : String)
    (lockInPlayer : PlayerWeekLockIn) : PlayerWeekLockIn :=
  match players.find? (fun pd =>
      decide (pd.sleeper_id = lockInPlayer.sleeperId ∧ pd.fantasy_team = fantasyTeam)) with
  | none => lockInPlayer
  | some playerData => rebuildWithLock playerData week nbaSchedule lockInPlayer.lockedGame

/-- `syncMatchupWithPlayerData` of `matchupsUtils.ts`: rebuild both player
lists from fresh data (preserving locks) and recompute the optimal totals. -/
def syncMatchupWithPlayerData (matchup : WeekMatchup)
    (players : List PlayerAnalytics) (nbaSchedule : Option NBASchedule) : WeekMatchup :=
  let myPlayers := matchup.myPlayers.map
    (syncOnePlayer players matchup.week nbaSchedule matchup.myTeamName)
  let opponentPlayers := matchup.opponentPlayers.map
    (syncOnePlayer players matchup.week nbaSchedule matchup.opponentTeamName)
  { matchup with
    myPlayers := myPlayers
    opponentPlayers := opponentPlayers
    myOptimalTotal := optimalTotal myPlayers
    opponentOptimalTotal := optimalTotal opponentPlayers }

/-! ## Swap flow of the `WeeklyMatchupView` component -/

/-- The bench-row gating of `WeeklyMatchupView` plus the hook call it guards:
a bench player can complete a swap into the slot at `starterIndex` only when
they are not locked and their parsed positions can fill that slot; otherwise
no swap button is rendered and the storage stays as it is. -/
def attemptSwapMyTeam (st : MatchupsStorage) (week : ℤ)
    (starterIndex benchIndex : ℕ) : MatchupsStorage :=
  match st.history.find? (fun m => decide (m.week = week)) with
  | none => st
  | some m =>
    match ((m.myPlayers.drop STARTERS_COUNT).get? benchIndex),
        (POSITION_SLOTS.get? starterIndex) with
    | some benchP, some targetSlot =>
      if benchP.lockedGame = none ∧ canFillSlot (parsePositions benchP.position) targetSlot
      then swapPlayers st week starterIndex benchIndex true
      else st
    | _, _ => st

/-! ## Aggregator and Advisory Engine (`analytics.ts`) -/

/-- Stable insertion step of the ascending rational sort below. -/
def insertQ (a : ℚ) : List ℚ → List ℚ
  | [] => [a]
  | b :: l => if b ≤ a then b :: insertQ a l else a :: b :: l

/-- Ascending sort of rationals (`.sort((a, b) => a - b)`). -/
def sortQ : List ℚ → List ℚ
  | [] => []
  | a :: l => insertQ a (sortQ l)

/-- `Math.max(...)` over a list of week numbers (only used on non-empty
lists; the empty case is unreachable behind the callers' guards). -/
def listMaxZ : List ℤ → ℤ
  | [] => 0
  | h :: t => t.foldl max h

/-- `Math.max(...)` over a list of rationals (only used on non-empty lists). -/
def listMaxQ : List ℚ → ℚ
  | [] => 0
  | h :: t => t.foldl max h

/-- `Math.min(...)` over a list of rationals (only used on non-empty lists). -/
def listMinQ : List ℚ → ℚ
  | [] => 0
  | h :: t => t.foldl min h

/-- Return type of `calcPlayerPeriodStats` (interface `PeriodPlayerStats`). -/
structure PeriodPlayerStats where
  expectedLockin : ℚ
  medianLockin : ℚ
  avgFpts : ℚ
  ceiling : ℚ
  floor : ℚ
  avgMinutes : ℚ
  games : ℚ
  weeks : ℕ
  pct40plus : ℚ
  pct45plus : ℚ
  pctBust : ℚ
  reliability : ℚ
  deriving DecidableEq

/-- The all-zero `PeriodPlayerStats`, returned on empty input. -/
def zeroPeriodStats : PeriodPlayerStats :=
  { expectedLockin := 0, medianLockin := 0, avgFpts := 0, ceiling := 0, floor := 0,
    avgMinutes := 0, games := 0, weeks := 0, pct40plus := 0, pct45plus := 0,
    pctBust := 0, reliability := 0 }

/-- The weekly-stats rows inside the selected window of
`calcPlayerPeriodStats` (`maxWeeks = 99` means the whole season). -/
def filteredWeeksOf (weeklyStats : List WeeklyStats) (maxWeeks : ℤ) : List WeeklyStats :=
  match weeklyStats with
  | [] => []
  | w0 :: rest =>
    let currentWeek := listMaxZ ((w0 :: rest).map (·.week))
    let minWeek := if maxWeeks = 99 then 1 else currentWeek - maxWeeks + 1
    (w0 :: rest).filter (fun w => decide (minWeek ≤ w.week))

/-- `calcPlayerPeriodStats` of `analytics.ts`: summary statistics plus the
composite reliability score over the weekly stats inside the window. -/
def calcPlayerPeriodStats (player : PlayerAnalytics) (maxWeeks : ℤ) : PeriodPlayerStats :=
  if player.weeklyStats = [] then zeroPeriodStats
  else
    let filteredWeeks := filteredWeeksOf player.weeklyStats maxWeeks
    if filteredWeeks = [] then zeroPeriodStats
    else
      let maxFptsList := filteredWeeks.map (·.maxFpts)
      let avgFptsList := filteredWeeks.map (·.avgFpts)
      let minutesList := filteredWeeks.map (·.avgMinutes)
      let totalWeeks : ℚ := maxFptsList.length
      let avgLockin := maxFptsList.sum / totalWeeks
      let sortedMaxes := sortQ maxFptsList
      let mid := sortedMaxes.length / 2
      let medianLockin :=
        if sortedMaxes.length % 2 ≠ 0 then sortedMaxes.getD mid 0
        else (sortedMaxes.getD (mid - 1) 0 + sortedMaxes.getD mid 0) / 2
      let pct40plus := (maxFptsList.countP (fun v => decide (40 ≤ v)) : ℚ) / totalWeeks * 100
      let pct45plus := (maxFptsList.countP (fun v => decide (45 ≤ v)) : ℚ) / totalWeeks * 100
      let pctBust := (maxFptsList.countP (fun v => decide (v < 35)) : ℚ) / totalWeeks * 100
      let reliability := pct40plus * 0.5 + pct45plus * 0.3 + (100 - pctBust) * 0.2
      { expectedLockin := avgLockin
        medianLockin := medianLockin
        avgFpts := avgFptsList.sum / avgFptsList.length
        ceiling := listMaxQ maxFptsList
        floor := listMinQ maxFptsList
        avgMinutes := minutesList.sum / minutesList.length
        games := (filteredWeeks.map (·.games)).sum
        weeks := maxFptsList.length
        pct40plus := pct40plus
        pct45plus := pct45plus
        pctBust := pctBust
        reliability := max 0 (min 100 reliability) }

/-- Return type of `getHealthyRecentGames`. -/
structure HealthyGamesResult where
  games : List Game
  avgMinutes : ℚ
  minMinutesThreshold : ℚ
  deriving DecidableEq

/-- `getHealthyRecentGames` of `analytics.ts`: the games of the trailing
`weeksBack`-week window whose minutes reach the player's recent average minus
five (floored at fifteen).  The callers relevant here never pass the optional
minutes override, so it is not modelled. -/
def getHealthyRecentGames (games : List Game) (weeksBack : ℤ) : HealthyGamesResult :=
  match games with
  | [] => { games := [], avgMinutes := 0, minMinutesThreshold := 15 }
  | g0 :: rest =>
    let currentWeek := listMaxZ ((g0 :: rest).map (·.week))
    let minWeek := currentWeek - weeksBack + 1
    let recentGames := (g0 :: rest).filter
      (fun g => decide (minWeek ≤ g.week ∧ g.week ≤ currentWeek))
    if recentGames = [] then { games := [], avgMinutes := 0, minMinutesThreshold := 15 }
    else
      let gamesWithMinutes := recentGames.filter (fun g => decide (10 ≤ g.minutes))
      let avgMinutes :=
        if gamesWithMinutes.length ≠ 0 then
          (gamesWithMinutes.map (·.minutes)).sum / gamesWithMinutes.length
        else 20
      let minMinutesThreshold := max 15 (avgMinutes - 5)
      { games := recentGames.filter (fun g => decide (minMinutesThreshold ≤ g.minutes))
        avgMinutes := avgMinutes
        minMinutesThreshold := minMinutesThreshold }

/-- Return type of `calcRealisticBounds`. -/
structure RealisticBounds where
  ceiling : ℚ
  floor : ℚ
  expected : ℚ
  avg : ℚ
  pct85 : ℚ
  recentMax : ℚ
  deriving DecidableEq

/-- `calcRealisticBounds` of `analytics.ts`: percentile-based floor, expected
value and ceiling, where the ceiling is the greater of the 85th percentile
and the maximum of the supplied recent games (or of the top quarter of the
sample, with a minimum of three games, when no recent games are supplied). -/
def calcRealisticBounds (games : List Game) (recentGames : List Game) : RealisticBounds :=
  if games = [] then
    { ceiling := 0, floor := 0, expected := 0, avg := 0, pct85 := 0, recentMax := 0 }
  else
    let fptsList := sortQ (games.map (·.fpts))
    let n := fptsList.length
    let getPct := fun (pct : ℕ) => fptsList.getD (min (pct * n / 100) (n - 1)) 0
    let pct85 := getPct 85
    let recentMax :=
      match recentGames with
      | [] => listMaxQ (fptsList.drop (n - max 3 (n / 4)))
      | r0 :: rrest => listMaxQ ((r0 :: rrest).map (·.fpts))
    { ceiling := max pct85 recentMax
      floor := getPct 15
      expected := getPct 50
      avg := fptsList.sum / n
      pct85 := pct85
      recentMax := recentMax }

/-- `calcChanceToBeat` of `analytics.ts`: the percentage of the sample
strictly exceeding the target. -/
def calcChanceToBeat (games : List Game) (target : ℚ) : ℚ :=
  if games = [] then 0
  else (games.countP (fun g => decide (target < g.fpts)) : ℚ) / games.length * 100

/-- The cumulative improvement chance of `analyzeThisWeek` (lines 785-789):
zero unless games remain and the single-game probability is positive, else
`(1 - (1 - p)^g) * 100`. -/
def cumulativeImprove (p : ℚ) (gamesRemaining : ℕ) : ℚ :=
  if 0 < gamesRemaining ∧ 0 < p then (1 - (1 - p) ^ gamesRemaining) * 100 else 0

/-- The LOCK / WAIT / HOLD verdict. -/
inductive Recommendation where
  | LOCK
  | HOLD
  | WAIT
  deriving DecidableEq

/-- The verdict block of `analyzeThisWeek` (`analytics.ts` lines 804-845) as
a function of the quantities it reads: the recommendation and the confidence. -/
def verdictOf (gamesRemaining gamesPlayed : ℕ)
    (chanceToImprove currentBest ceiling : ℚ) : Recommendation × ℚ :=
  let currentVsCeiling := if 0 < ceiling then currentBest / ceiling * 100 else 0
  if gamesRemaining = 0 then (.LOCK, 100)
  else if gamesPlayed = 0 then (.WAIT, 100)
  else if chanceToImprove < 30 then (.LOCK, min 95 (100 - chanceToImprove))
  else if 55 < chanceToImprove then (.WAIT, min 95 chanceToImprove)
  else if 85 ≤ currentVsCeiling then (.LOCK, 70 + (currentVsCeiling - 85))
  else if currentVsCeiling < 60 ∧ 2 ≤ gamesRemaining then (.WAIT, 65)
  else (.HOLD, 50)

/-- Return type of `analyzeThisWeek` (interface `ThisWeekAnalysis`). -/
structure ThisWeekAnalysis where
  currentBest : ℚ
  gamesPlayed : ℕ
  gamesRemaining : ℕ
  realisticCeiling : ℚ
  realisticFloor : ℚ
  expectedValue : ℚ
  singleGameChance : ℚ
  chanceToImprove : ℚ
  chanceToHitCeiling : ℚ
  recommendation : Recommendation
  confidence : ℚ
  filteredGamesCount : ℕ
  deriving DecidableEq

/-- `analyzeThisWeek` of `analytics.ts`: the advisory engine's main entry.
Computes the current best score of the in-progress week, realistic bounds
from the healthy six-week sample, single-game and cumulative improvement
probabilities, and the ordered LOCK / WAIT / HOLD verdict rules. -/
def analyzeThisWeek (player : PlayerAnalytics) (currentWeek : ℤ)
    (gamesRemaining : ℕ) (scoreOverride : Option ℚ) : ThisWeekAnalysis :=
  let thisWeekGames := player.games.filter (fun g => decide (g.week = currentWeek))
  let gamesPlayed := thisWeekGames.length
  let actualBest := if thisWeekGames = [] then 0 else listMaxQ (thisWeekGames.map (·.fpts))
  let currentBest := scoreOverride.getD actualBest
  let healthy := getHealthyRecentGames player.games 6
  let last2 := getHealthyRecentGames player.games 2
  let bounds := calcRealisticBounds healthy.games last2.games
  let singleGameProbBeat := calcChanceToBeat healthy.games currentBest / 100
  let chanceToImprove := cumulativeImprove singleGameProbBeat gamesRemaining
  let singleGameChance := singleGameProbBeat * 100
  let ceilingThreshold := bounds.ceiling * 0.9
  let singleGameCeilingProb := calcChanceToBeat healthy.games (ceilingThreshold - 0.01) / 100
  let chanceToHitCeiling :=
    if 0 < gamesRemaining then (1 - (1 - singleGameCeilingProb) ^ gamesRemaining) * 100
    else 0
  let verdict := verdictOf gamesRemaining gamesPlayed chanceToImprove currentBest bounds.ceiling
  { currentBest := currentBest
    gamesPlayed := gamesPlayed
    gamesRemaining := gamesRemaining
    realisticCeiling := bounds.ceiling
    realisticFloor := bounds.floor
    expectedValue := bounds.expected
    singleGameChance := singleGameChance
    chanceToImprove := chanceToImprove
    chanceToHitCeiling := chanceToHitCeiling
    recommendation := verdict.1
    confidence := verdict.2
    filteredGamesCount := healthy.games.length }

/-! ## Helper lemmas -/

/-- Insertion preserves length. -/
theorem insertQ_length (a : ℚ) (l : List ℚ) : (insertQ a l).length = l.length + 1 := by
  induction l with
  | nil => rfl
  | cons b t ih =>
    unfold insertQ
    by_cases h : b ≤ a <;> simp [h, ih]

/-- Sorting preserves length. -/
theorem sortQ_length (l : List ℚ) : (sortQ l).length = l.length := by
  induction l with
  | nil => rfl
  | cons a t ih => simp [sortQ, insertQ_length, ih]

/-! ## C6: cumulative improvement probability -/

/-- C6: for every single-game improvement probability `p` with `0 ≤ p ≤ 1`,
the cumulative improvement chance over `g` remaining games computed by
`analyzeThisWeek` equals `(1 - (1 - p)^g) * 100`; it is non-decreasing in the
games-remaining count and is exactly 0 when no games remain. -/
theorem cumulativeImprove_formula_monotone (p : ℚ) (g g' : ℕ)
    (h0 : 0 ≤ p) (h1 : p ≤ 1) (hg : g ≤ g') :
    cumulativeImprove p g = (1 - (1 - p) ^ g) * 100 ∧
    cumulativeImprove p g ≤ cumulativeImprove p g' ∧
    cumulativeImprove p 0 = 0 := by
  have formula : ∀ n : ℕ, cumulativeImprove p n = (1 - (1 - p) ^ n) * 100 := by
    intro n
    unfold cumulativeImprove
    by_cases hn : 0 < n
    · by_cases hp : 0 < p
      · simp [hn, hp]
      · have hp0 : p = 0 := le_antisymm (not_lt.mp hp) h0
        simp [hp0]
    · have hn0 : n = 0 := Nat.eq_zero_of_not_pos hn
      simp [hn0]
  refine ⟨formula g, ?_, ?_⟩
  · rw [formula g, formula g']
    have hbase0 : (0 : ℚ) ≤ 1 - p := by linarith
    have hbase1 : 1 - p ≤ 1 := by linarith
    have hpow : (1 - p) ^ g' ≤ (1 - p) ^ g :=
      pow_le_pow_of_le_one hbase0 hbase1 hg
    nlinarith
  · rw [formula 0]
    norm_num

/-- Concrete instance of `cumulativeImprove_formula_monotone` at
`p = 1/2`, `g = 1`, `g' = 3`. -/
theorem cumulativeImprove_formula_monotone_witness :
    cumulativeImprove (1/2) 1 = (1 - (1 - 1/2 : ℚ) ^ 1) * 100 ∧
    cumulativeImprove (1/2) 1 ≤ cumulativeImprove (1/2) 3 ∧
    cumulativeImprove (1/2) 0 = 0 :=
  cumulativeImprove_formula_monotone (1/2) 1 3 (by norm_num) (by norm_num) (by norm_num)

/-! ## C8: reliability score -/

/-- C8: for a non-empty weekly-stats sample inside the selected window, the
reliability score is the fixed weighted composite
`0.5 * pct40plus + 0.3 * pct45plus + 0.2 * (100 - pctBust)` clamped to
`[0, 100]`, and in particular always lies in `[0, 100]`. -/
theorem reliability_formula_and_range (player : PlayerAnalytics) (maxWeeks : ℤ)
    (hne : filteredWeeksOf player.weeklyStats maxWeeks ≠ []) :
    (calcPlayerPeriodStats player maxWeeks).reliability =
      max 0 (min 100
        (0.5 * (((filteredWeeksOf player.weeklyStats maxWeeks).map (·.maxFpts)).countP
            (fun v => decide (40 ≤ v)) : ℚ) /
            ((filteredWeeksOf player.weeklyStats maxWeeks).length : ℚ) * 100 +
         0.3 * (((filteredWeeksOf player.weeklyStats maxWeeks).map (·.maxFpts)).countP
            (fun v => decide (45 ≤ v)) : ℚ) /
            ((filteredWeeksOf player.weeklyStats maxWeeks).length : ℚ) * 100 +
         0.2 * (100 - (((filteredWeeksOf player.weeklyStats maxWeeks).map (·.maxFpts)).countP
            (fun v => decide (v < 35)) : ℚ) /
            ((filteredWeeksOf player.weeklyStats maxWeeks).length : ℚ) * 100))) ∧
    0 ≤ (calcPlayerPeriodStats player maxWeeks).reliability ∧
    (calcPlayerPeriodStats player maxWeeks).reliability ≤ 100 := by
  have hws : player.weeklyStats ≠ [] := by
    intro h
    apply hne
    rw [h]
    rfl
  have hrel : (calcPlayerPeriodStats player maxWeeks).reliability =
      max 0 (min 100
        ((((filteredWeeksOf player.weeklyStats maxWeeks).map (·.maxFpts)).countP
            (fun v => decide (40 ≤ v)) : ℚ) /
            (((filteredWeeksOf player.weeklyStats maxWeeks).map (·.maxFpts)).length : ℚ)
            * 100 * 0.5 +
         (((filteredWeeksOf player.weeklyStats maxWeeks).map (·.maxFpts)).countP
            (fun v => decide (45 ≤ v)) : ℚ) /
            (((filteredWeeksOf player.weeklyStats maxWeeks).map (·.maxFpts)).length : ℚ)
            * 100 * 0.3 +
         (100 - (((filteredWeeksOf player.weeklyStats maxWeeks).map (·.maxFpts)).countP
            (fun v => decide (v < 35)) : ℚ) /
            (((filteredWeeksOf player.weeklyStats maxWeeks).map (·.maxFpts)).length : ℚ)
            * 100) * 0.2)) := by
    unfold calcPlayerPeriodStats
    rw [if_neg hws, if_neg hne]
  refine ⟨?_, ?_, ?_⟩
  · rw [hrel]
    congr 1
    congr 1
    simp only [List.length_map]
    ring
  · rw [hrel]
    exact le_max_left 0 _
  · rw [hrel]
    exact max_le (by norm_num) (min_le_left _ _)

/-- Concrete weekly stats row used by several witnesses below. -/
def mkWeek (w : ℤ) (maxF : ℚ) : WeeklyStats :=
  { week := w, games := 3, maxFpts := maxF, minFpts := 10, avgFpts := 20,
    avgMinutes := 30, gamesList := [] }

/-- Concrete player used by the reliability witness. -/
def relPlayer : PlayerAnalytics :=
  { player := "R", sleeper_id := "r1", nba_team := "BOS", fantasy_team := "T",
    position := "PG", expectedLockin := 0,
    weeklyStats := [mkWeek 1 50, mkWeek 2 30], games := [] }

/-- Concrete instance of `reliability_formula_and_range`. -/
theorem reliability_formula_and_range_witness :
    (calcPlayerPeriodStats relPlayer 99).reliability =
      max 0 (min 100
        (0.5 * (((filteredWeeksOf relPlayer.weeklyStats 99).map (·.maxFpts)).countP
            (fun v => decide (40 ≤ v)) : ℚ) /
            ((filteredWeeksOf relPlayer.weeklyStats 99).length : ℚ) * 100 +
         0.3 * (((filteredWeeksOf relPlayer.weeklyStats 99).map (·.maxFpts)).countP
            (fun v => decide (45 ≤ v)) : ℚ) /
            ((filteredWeeksOf relPlayer.weeklyStats 99).length : ℚ) * 100 +
         0.2 * (100 - (((filteredWeeksOf relPlayer.weeklyStats 99).map (·.maxFpts)).countP
            (fun v => decide (v < 35)) : ℚ) /
            ((filteredWeeksOf relPlayer.weeklyStats 99).length : ℚ) * 100))) ∧
    0 ≤ (calcPlayerPeriodStats relPlayer 99).reliability ∧
    (calcPlayerPeriodStats relPlayer 99).reliability ≤ 100 :=
  reliability_formula_and_range relPlayer 99 (by decide)

/-! ## C9: storage migration -/

/-- C9: a parsed document whose version already equals the current schema
version is returned unchanged by `migrateStorage`; any other parsed object is
shallow-merged over a fresh default (present fields win) and stamped with the
current version; consequently migration is idempotent. -/
theorem migrateStorage_idempotent (now now2 : String) (d d2 : RawStorageDoc)
    (x : Option RawStorageDoc)
    (hv : d.version = some CURRENT_VERSION)
    (hv2 : d2.version ≠ some CURRENT_VERSION) :
    migrateStorage now (some d) = d ∧
    migrateStorage now (some d2) =
      { version := some CURRENT_VERSION
        config := d2.config.or (some { myTeamRosterId := none })
        history := d2.history.or (some [])
        lastUpdated := d2.lastUpdated.or (some now) } ∧
    migrateStorage now2 (some (migrateStorage now x)) = migrateStorage now x := by
  refine ⟨?_, ?_, ?_⟩
  · simp [migrateStorage, hv]
  · simp [migrateStorage, hv2, rawOfStorage, getDefaultStorage]
  · cases x with
    | none => simp [migrateStorage, rawOfStorage, getDefaultStorage]
    | some d3 =>
      by_cases h3 : d3.version = some CURRENT_VERSION
      · simp [migrateStorage, h3]
      · simp [migrateStorage, h3, rawOfStorage, getDefaultStorage]

/-- Concrete raw documents used by the migration witness. -/
def rawCurrent : RawStorageDoc :=
  { version := some 1, config := some { myTeamRosterId := some 3 },
    history := some [], lastUpdated := some "t0" }

/-- A raw document with an unrecognized version and a missing config. -/
def rawOld : RawStorageDoc :=
  { version := some 0, config := none, history := some [], lastUpdated := none }

/-- Concrete instance of `migrateStorage_idempotent`. -/
theorem migrateStorage_idempotent_witness :
    migrateStorage "t1" (some rawCurrent) = rawCurrent ∧
    migrateStorage "t1" (some rawOld) =
      { version := some CURRENT_VERSION
        config := rawOld.config.or (some { myTeamRosterId := none })
        history := rawOld.history.or (some [])
        lastUpdated := rawOld.lastUpdated.or (some "t1") } ∧
    migrateStorage "t2" (some (migrateStorage "t1" (some rawOld))) =
      migrateStorage "t1" (some rawOld) :=
  migrateStorage_idempotent "t1" "t2" rawCurrent rawOld (some rawOld)
    (by decide) (by decide)

/-! ## C10: optimal game selection -/

/-- The winner of the JS `reduce` step keeps every earlier bound and belongs
to the candidate list. -/
theorem foldl_best_spec (b : WeekGame) (l : List WeekGame) :
    (l.foldl (fun best game => if best.fpts < game.fpts then game else best) b) ∈ b :: l ∧
    ∀ x ∈ b :: l,
      x.fpts ≤ (l.foldl (fun best game => if best.fpts < game.fpts then game else best) b).fpts := by
  induction l generalizing b with
  | nil => simp
  | cons a t ih =>
    simp only [List.foldl_cons]
    obtain ⟨ihmem, ihbound⟩ := ih (if b.fpts < a.fpts then a else b)
    have hstepmem : (if b.fpts < a.fpts then a else b) ∈ b :: a :: t := by
      by_cases h : b.fpts < a.fpts <;> simp [h]
    have hstart : (if b.fpts < a.fpts then a else b).fpts ≤
        (t.foldl (fun best game => if best.fpts < game.fpts then game else best)
          (if b.fpts < a.fpts then a else b)).fpts :=
      ihbound _ (List.mem_cons_self _ _)
    have hb : b.fpts ≤ (if b.fpts < a.fpts then a else b).fpts := by
      by_cases h : b.fpts < a.fpts <;> simp [h]
      exact le_of_lt h
    have ha : a.fpts ≤ (if b.fpts < a.fpts then a else b).fpts := by
      by_cases h : b.fpts < a.fpts <;> simp [h]
      exact not_lt.mp h
    constructor
    · rcases List.mem_cons.mp ihmem with hh | ht
      · rw [hh]
        exact hstepmem
      · exact List.mem_cons_of_mem _ (List.mem_cons_of_mem _ ht)
    · intro x hx
      rcases List.mem_cons.mp hx with hxb | hx2
      · rw [hxb]
        exact le_trans hb hstart
      · rcases List.mem_cons.mp hx2 with hxa | hxt
        · rw [hxa]
          exact le_trans ha hstart
        · exact ihbound x (List.mem_cons_of_mem _ hxt)

/-- C10: `getOptimalGame` returns `none` exactly when no played game has
positive fantasy points (even if played games with zero or negative scores
exist), and otherwise returns a played, positively scored member of the list
whose score bounds every other played positively scored game. -/
theorem getOptimalGame_spec (games : List WeekGame) :
    (getOptimalGame games = none ↔
      ∀ g ∈ games, ¬(g.isPlayed = true ∧ 0 < g.fpts)) ∧
    ∀ gb, getOptimalGame games = some gb →
      gb ∈ games ∧ gb.isPlayed = true ∧ 0 < gb.fpts ∧
      ∀ g ∈ games, g.isPlayed = true → 0 < g.fpts → g.fpts ≤ gb.fpts := by
  have hpred : ∀ g : WeekGame,
      (g.isPlayed && decide (0 < g.fpts)) = true ↔ (g.isPlayed = true ∧ 0 < g.fpts) := by
    intro g
    simp
  constructor
  · unfold getOptimalGame
    cases hf : games.filter (fun g => g.isPlayed && decide (0 < g.fpts)) with
    | nil =>
      simp only [true_iff]
      intro g hg hgood
      have : g ∈ games.filter (fun g => g.isPlayed && decide (0 < g.fpts)) :=
        List.mem_filter.mpr ⟨hg, (hpred g).mpr hgood⟩
      rw [hf] at this
      exact absurd this (List.not_mem_nil g)
    | cons h t =>
      have hh : h ∈ games.filter (fun g => g.isPlayed && decide (0 < g.fpts)) := by
        rw [hf]
        exact List.mem_cons_self h t
      have hmem := List.mem_filter.mp hh
      constructor
      · intro hc
        exact absurd hc (by simp)
      · intro hall
        exact absurd ((hpred h).mp hmem.2) (hall h hmem.1)
  · intro gb hgb
    unfold getOptimalGame at hgb
    cases hf : games.filter (fun g => g.isPlayed && decide (0 < g.fpts)) with
    | nil => rw [hf] at hgb; exact absurd hgb (by simp)
    | cons h t =>
      rw [hf] at hgb
      have hspec := foldl_best_spec h t
      have hgbval : gb = t.foldl (fun best game => if best.fpts < game.fpts then game else best) h := by
        simpa using hgb.symm
      have hgbmem : gb ∈ h :: t := hgbval ▸ hspec.1
      have hgbfilter : gb ∈ games.filter (fun g => g.isPlayed && decide (0 < g.fpts)) := by
        rw [hf]
        exact hgbmem
      have hgbprops := List.mem_filter.mp hgbfilter
      refine ⟨hgbprops.1, ((hpred gb).mp hgbprops.2).1, ((hpred gb).mp hgbprops.2).2, ?_⟩
      intro g hg hgp hgf
      have hgfilter : g ∈ games.filter (fun g => g.isPlayed && decide (0 < g.fpts)) :=
        List.mem_filter.mpr ⟨hg, (hpred g).mpr ⟨hgp, hgf⟩⟩
      rw [hf] at hgfilter
      rw [hgbval]
      exact hspec.2 g hgfilter

/-- Concrete games list used by the optimal-game witness. -/
def wgames : List WeekGame :=
  [ { date := 1, fpts := 5, opponent := "a", isPlayed := false, isLocked := false },
    { date := 2, fpts := 0, opponent := "b", isPlayed := true, isLocked := false },
    { date := 3, fpts := 7, opponent := "c", isPlayed := true, isLocked := false },
    { date := 4, fpts := 3, opponent := "d", isPlayed := true, isLocked := false } ]

/-- Concrete instance of `getOptimalGame_spec`: the optimal game of `wgames`
is its third entry, which bounds every played positive game. -/
theorem getOptimalGame_spec_witness :
    { date := 3, fpts := 7, opponent := "c", isPlayed := true, isLocked := false } ∈ wgames ∧
    ({ date := 3, fpts := 7, opponent := "c", isPlayed := true, isLocked := false } : WeekGame).isPlayed = true ∧
    (0 : ℚ) < ({ date := 3, fpts := 7, opponent := "c", isPlayed := true, isLocked := false } : WeekGame).fpts ∧
    ∀ g ∈ wgames, g.isPlayed = true → 0 < g.fpts →
      g.fpts ≤ ({ date := 3, fpts := 7, opponent := "c", isPlayed := true, isLocked := false } : WeekGame).fpts :=
  (getOptimalGame_spec wgames).2
    { date := 3, fpts := 7, opponent := "c", isPlayed := true, isLocked := false } (by decide)

/-! ## C7: realistic bounds percentiles -/

/-- The sample's `pct`-th percentile as the spec uses the term: the entry of
the ascending sort at index `floor(pct/100 * n)`, clamped to the last index. -/
def percentileOf (l : List ℚ) (pct : ℕ) : ℚ :=
  (sortQ l).getD (min (pct * l.length / 100) (l.length - 1)) 0

/-- C7: for a non-empty healthy-games sample and a supplied (non-empty)
last-2-weeks list, `calcRealisticBounds` returns floor = 15th percentile,
expected = 50th percentile, and ceiling = the greater of the 85th percentile
and the maximum recent score. -/
theorem calcRealisticBounds_percentiles (games recent : List Game)
    (hg : games ≠ []) (hr : recent ≠ []) :
    (calcRealisticBounds games recent).floor = percentileOf (games.map (·.fpts)) 15 ∧
    (calcRealisticBounds games recent).expected = percentileOf (games.map (·.fpts)) 50 ∧
    (calcRealisticBounds games recent).ceiling =
      max (percentileOf (games.map (·.fpts)) 85) (listMaxQ (recent.map (·.fpts))) := by
  have hlen : (sortQ (games.map (·.fpts))).length = (games.map (·.fpts)).length :=
    sortQ_length _
  cases recent with
  | nil => exact absurd rfl hr
  | cons r0 rrest =>
    unfold calcRealisticBounds
    rw [if_neg hg]
    unfold percentileOf
    simp only [hlen, List.length_map, List.map_cons]
    refine ⟨?_, ?_, ?_⟩ <;> trivial

/-- Concrete game row used by witnesses, with configurable week and score. -/
def mkGameRow (w : ℤ) (d : ℤ) (f : ℚ) : Game :=
  { week := w, date := d, minutes := 30, fpts := f, matchup := "m" }

/-- Concrete instance of `calcRealisticBounds_percentiles` on a ten-game
sample with a one-game recent list. -/
theorem calcRealisticBounds_percentiles_witness :
    (calcRealisticBounds
        [mkGameRow 1 1 10, mkGameRow 1 2 20, mkGameRow 2 3 30, mkGameRow 2 4 40]
        [mkGameRow 2 4 40]).floor =
      percentileOf ([mkGameRow 1 1 10, mkGameRow 1 2 20, mkGameRow 2 3 30,
        mkGameRow 2 4 40].map (·.fpts)) 15 ∧
    (calcRealisticBounds
        [mkGameRow 1 1 10, mkGameRow 1 2 20, mkGameRow 2 3 30, mkGameRow 2 4 40]
        [mkGameRow 2 4 40]).expected =
      percentileOf ([mkGameRow 1 1 10, mkGameRow 1 2 20, mkGameRow 2 3 30,
        mkGameRow 2 4 40].map (·.fpts)) 50 ∧
    (calcRealisticBounds
        [mkGameRow 1 1 10, mkGameRow 1 2 20, mkGameRow 2 3 30, mkGameRow 2 4 40]
        [mkGameRow 2 4 40]).ceiling =
      max (percentileOf ([mkGameRow 1 1 10, mkGameRow 1 2 20, mkGameRow 2 3 30,
        mkGameRow 2 4 40].map (·.fpts)) 85)
        (listMaxQ ([mkGameRow 2 4 40].map (·.fpts))) :=
  calcRealisticBounds_percentiles _ _ (by decide) (by decide)

/-! ## C5: swap eligibility scenario -/

/-- Unlocked roster entry with the given id and position, used by concrete
swap scenarios. -/
def mkLP (id : String) (pos : String) : PlayerWeekLockIn :=
  { sleeperId := id, playerName := id, nbaTeam := "BOS", position := pos, week := 1,
    games := [], lockedGame := none, optimalGame := none, lockQuality := none }

/-- Concrete week-1 matchup: ten starters and one PG-only bench player. -/
def cexM5 : WeekMatchup :=
  { week := 1, seasonYear := "2025-26", myTeamRosterId := 1, opponentRosterId := 2,
    myTeamName := "A", opponentTeamName := "B",
    myPlayers := [mkLP "p0" "PG", mkLP "p1" "SG", mkLP "p2" "SG", mkLP "p3" "SF",
      mkLP "p4" "PF", mkLP "p5" "PF", mkLP "p6" "C", mkLP "p7" "C", mkLP "p8" "PG",
      mkLP "p9" "SF", mkLP "b0" "PG"],
    opponentPlayers := [], myTotalLocked := 0, opponentTotalLocked := 0,
    myOptimalTotal := 0, opponentOptimalTotal := 0, result := .pending }

/-- Concrete storage holding only `cexM5`. -/
def cexSt5 : MatchupsStorage :=
  { version := 1, config := { myTeamRosterId := some 1 }, history := [cexM5],
    lastUpdated := "t" }

/-- C5 counterexample: the slot at index 2 is the flexible guard slot `G`,
whose eligible set does intersect a pure point guard's positions, so swapping
a PG-only bench player into starter index 2 is allowed and does change the
roster — the claimed rejection at index 2 does not happen. -/
theorem swap_slot2_pg_not_rejected :
    POSITION_SLOTS.getD 2 "" = "G" ∧
    canFillSlot (parsePositions "PG") "G" = true ∧
    attemptSwapMyTeam cexSt5 1 2 0 ≠ cexSt5 := by decide

/-- C5 amended: the `SF` slot sits at starter index 3, and there the spec's
scenario holds: a bench player whose parsed positions are exactly `["PG"]`
cannot fill it, the swap attempt is rejected, and the storage (hence the
roster list) is unchanged. -/
theorem swap_pg_into_sf_slot_rejected (st : MatchupsStorage) (w : ℤ) (bi : ℕ)
    (m : WeekMatchup) (p : PlayerWeekLockIn)
    (hm : st.history.find? (fun m2 => decide (m2.week = w)) = some m)
    (hp : (m.myPlayers.drop STARTERS_COUNT).get? bi = some p)
    (hpos : parsePositions p.position = ["PG"]) :
    canFillSlot (parsePositions p.position) "SF" = false ∧
    POSITION_SLOTS.get? 3 = some "SF" ∧
    attemptSwapMyTeam st w 3 bi = st := by
  have hcant : canFillSlot (parsePositions p.position) "SF" = false := by
    rw [hpos]
    decide
  refine ⟨hcant, rfl, ?_⟩
  have hslot : POSITION_SLOTS.get? 3 = some "SF" := rfl
  simp only [attemptSwapMyTeam, hm, hp, hslot, hcant]
  simp

/-- Concrete instance of `swap_pg_into_sf_slot_rejected` on `cexSt5`. -/
theorem swap_pg_into_sf_slot_rejected_witness :
    canFillSlot (parsePositions ((mkLP "b0" "PG").position)) "SF" = false ∧
    POSITION_SLOTS.get? 3 = some "SF" ∧
    attemptSwapMyTeam cexSt5 1 3 0 = cexSt5 :=
  swap_pg_into_sf_slot_rejected cexSt5 1 0 cexM5 (mkLP "b0" "PG")
    (by decide) (by decide) (by decide)

/-! ## C1: swap transition bounds -/

/-- Concrete lock decision held by a starter. -/
def cexD1 : LockInDecision :=
  { gameDate := 5, gameFpts := 30, lockedAt := "t", isAutoLocked := false }

/-- Concrete week-1 matchup whose starter at index 0 is locked. -/
def cexM1 : WeekMatchup :=
  { cexM5 with
    myPlayers := [{ mkLP "p0" "PG" with lockedGame := some cexD1 }, mkLP "p1" "SG",
      mkLP "p2" "SG", mkLP "p3" "SF", mkLP "p4" "PF", mkLP "p5" "PF", mkLP "p6" "C",
      mkLP "p7" "C", mkLP "p8" "PG", mkLP "p9" "SF", mkLP "b0" "PG"] }

/-- Concrete storage holding only `cexM1`. -/
def cexSt1 : MatchupsStorage :=
  { version := 1, config := { myTeamRosterId := some 1 }, history := [cexM1],
    lastUpdated := "t" }

/-- C1 counterexample: `swapPlayers` checks only the two index bounds; the
starter at index 0 holds a `lockedGame`, yet the swap with bench index 0 goes
through and changes the stored record, so the claimed lock precondition is
not enforced by `swapPlayers`. -/
theorem swapPlayers_ignores_starter_lock :
    (cexM1.myPlayers.get? 0).map (·.lockedGame) = some (some cexD1) ∧
    swapPlayers cexSt1 1 0 0 true ≠ cexSt1 := by decide

/-- C1 amended: `swapPlayers` rewrites exactly the record of the requested
week through `swapInMatchup`; that transition is a no-op unless the starter
index is within the first ten positions and the mapped bench index is within
the list (a starter's `lockedGame` is not checked); when it succeeds it
exchanges exactly the two entries of the side's list in place, each entry
preserved whole, every other entry and every other field unchanged. -/
theorem swapPlayers_spec (st : MatchupsStorage) (w : ℤ) (si bi : ℕ) (side : Bool) :
    ((swapPlayers st w si bi side).history =
      st.history.map (fun m => if m.week = w then swapInMatchup m si bi side else m)) ∧
    (∀ m : WeekMatchup, STARTERS_COUNT ≤ si → swapInMatchup m si bi side = m) ∧
    (∀ m : WeekMatchup, (rosterOf m side).length ≤ STARTERS_COUNT + bi →
      swapInMatchup m si bi side = m) ∧
    (∀ m : WeekMatchup, si < STARTERS_COUNT →
      STARTERS_COUNT + bi < (rosterOf m side).length →
      rosterOf (swapInMatchup m si bi side) side =
        listSwap (rosterOf m side) si (STARTERS_COUNT + bi) ∧
      rosterOf (swapInMatchup m si bi side) (!side) = rosterOf m (!side) ∧
      (swapInMatchup m si bi side).week = m.week ∧
      (swapInMatchup m si bi side).myTotalLocked = m.myTotalLocked ∧
      (swapInMatchup m si bi side).opponentTotalLocked = m.opponentTotalLocked ∧
      (swapInMatchup m si bi side).myOptimalTotal = m.myOptimalTotal ∧
      (swapInMatchup m si bi side).opponentOptimalTotal = m.opponentOptimalTotal ∧
      (swapInMatchup m si bi side).result = m.result) ∧
    (∀ (l : List PlayerWeekLockIn) (i j : ℕ), i < l.length → j < l.length →
      (listSwap l i j).length = l.length ∧
      (listSwap l i j).get? i = l.get? j ∧
      (listSwap l i j).get? j = l.get? i ∧
      ∀ k, k ≠ i → k ≠ j → (listSwap l i j).get? k = l.get? k) := by
  refine ⟨?_, ?_, ?_, ?_, ?_⟩
  · unfold swapPlayers
    simp only
    apply List.map_congr_left
    intro m _
    by_cases h : m.week = w <;> simp [h]
  · intro m h
    unfold swapInMatchup
    rw [if_pos h]
  · intro m h
    unfold swapInMatchup
    by_cases hsi : STARTERS_COUNT ≤ si
    · rw [if_pos hsi]
    · rw [if_neg hsi, if_pos h]
  · intro m hsi hbench
    unfold swapInMatchup
    rw [if_neg (not_le.mpr hsi), if_neg (not_le.mpr hbench)]
    cases side <;>
      simp [setRoster, rosterOf]
  · intro l i j hi hj
    have hgi := List.get?_eq_get hi
    have hgj := List.get?_eq_get hj
    unfold listSwap
    rw [hgi, hgj]
    simp only
    have hlen : ((l.set i (l.get ⟨j, hj⟩)).set j (l.get ⟨i, hi⟩)).length = l.length := by
      simp
    have hjlen : j < (l.set i (l.get ⟨j, hj⟩)).length := by simpa using hj
    refine ⟨hlen, ?_, ?_, ?_⟩
    · by_cases hij : i = j
      · subst hij
        rw [List.get?_set_eq_of_lt _ hjlen]
      · rw [List.get?_set_ne _ _ (fun hc => hij hc.symm),
          List.get?_set_eq_of_lt _ hi]
    · rw [List.get?_set_eq_of_lt _ hjlen]
    · intro k hki hkj
      rw [List.get?_set_ne _ _ (fun hc => hkj hc.symm),
        List.get?_set_ne _ _ (fun hc => hki hc.symm)]

/-- Concrete instance of `swapPlayers_spec`: an in-bounds swap exchanges the
two entries, and an out-of-bounds starter index is a no-op. -/
theorem swapPlayers_spec_witness :
    rosterOf (swapInMatchup cexM5 2 0 true) true =
      listSwap (rosterOf cexM5 true) 2 (STARTERS_COUNT + 0) ∧
    (listSwap cexM5.myPlayers 2 10).get? 2 = cexM5.myPlayers.get? 10 ∧
    swapInMatchup cexM5 12 0 true = cexM5 :=
  ⟨((swapPlayers_spec cexSt5 1 2 0 true).2.2.2.1 cexM5 (by decide) (by decide)).1,
   ((swapPlayers_spec cexSt5 1 2 10 true).2.2.2.2 cexM5.myPlayers 2 10
     (by decide) (by decide)).2.1,
   (swapPlayers_spec cexSt5 1 12 0 true).2.1 cexM5 (by decide)⟩

/-! ## C2: lock then unlock -/

/-- Re-flagging `isLocked` commutes with the played-positive filter, since
the filter only reads `isPlayed` and `fpts`. -/
theorem filter_map_flag (l : List WeekGame) (f : WeekGame → Bool) :
    (l.map (fun g => { g with isLocked := f g })).filter
      (fun g => g.isPlayed && decide (0 < g.fpts)) =
    (l.filter (fun g => g.isPlayed && decide (0 < g.fpts))).map
      (fun g => { g with isLocked := f g }) := by
  induction l with
  | nil => rfl
  | cons a t ih =>
    simp only [List.map_cons, List.filter_cons]
    by_cases h : (a.isPlayed && decide (0 < a.fpts)) = true <;>
      simp [h, ih]

/-- The fold picking the best game commutes with re-flagging `isLocked`,
since it only compares `fpts`. -/
theorem foldl_best_map_flag (f : WeekGame → Bool) (b : WeekGame) (l : List WeekGame) :
    ((l.map (fun g => { g with isLocked := f g })).foldl
      (fun best game => if best.fpts < game.fpts then game else best)
      { b with isLocked := f b }) =
    { l.foldl (fun best game => if best.fpts < game.fpts then game else best) b
      with isLocked := f (l.foldl (fun best game => if best.fpts < game.fpts then game else best) b) } := by
  induction l generalizing b with
  | nil => rfl
  | cons a t ih =>
    simp only [List.map_cons, List.foldl_cons]
    by_cases h : b.fpts < a.fpts <;>
      simp only [h, if_true, if_false, ite_true, ite_false] <;>
      rw [ih]

/-- The stored `{ date, fpts }` optimal pair is unchanged by rewriting the
`isLocked` flags of the games list. -/
theorem optimalPairOf_map_flag (l : List WeekGame) (f : WeekGame → Bool) :
    optimalPairOf (l.map (fun g => { g with isLocked := f g })) = optimalPairOf l := by
  unfold optimalPairOf getOptimalGame
  rw [filter_map_flag]
  cases h : l.filter (fun g => g.isPlayed && decide (0 < g.fpts)) with
  | nil => rfl
  | cons x xs =>
    simp only [List.map_cons]
    rw [foldl_best_map_flag]
    rfl

/-- Per-player round trip: locking a player who starts in a canonical
unlocked state (no lock, no flags, no quality, current optimal pair) and then
clearing the lock restores the player record exactly. -/
theorem clearLock_recordLock_player (sid : String) (d : LockInDecision)
    (p : PlayerWeekLockIn)
    (hsid : p.sleeperId = sid)
    (hlock : p.lockedGame = none)
    (hflags : ∀ g ∈ p.games, g.isLocked = false)
    (hq : p.lockQuality = none)
    (hopt : p.optimalGame = optimalPairOf p.games) :
    clearLockPlayer sid (recordLockPlayer sid d p) = p := by
  unfold recordLockPlayer
  rw [if_neg (by simp [hsid])]
  unfold clearLockPlayer
  rw [if_neg (by simp [hsid])]
  have hgames : ((p.games.map (fun g => { g with isLocked := decide (g.date = d.gameDate) })).map
      (fun g => { g with isLocked := false })) = p.games := by
    rw [List.map_map]
    have hid : ∀ g ∈ p.games,
        ((fun g => ({ g with isLocked := false } : WeekGame)) ∘
          (fun g => ({ g with isLocked := decide (g.date = d.gameDate) } : WeekGame))) g
          = id g := by
      intro g hg
      have hfl := hflags g hg
      cases g
      simp_all [Function.comp]
    rw [List.map_congr_left hid, List.map_id]
  have hoptpair : ((getOptimalGame (p.games.map
      (fun g => { g with isLocked := decide (g.date = d.gameDate) }))).map
      (fun g => (⟨g.date, g.fpts⟩ : OptimalRef))) = p.optimalGame := by
    have := optimalPairOf_map_flag p.games (fun g => decide (g.date = d.gameDate))
    unfold optimalPairOf at this
    rw [this, hopt]
    rfl
  obtain ⟨psid, pname, pteam, ppos, pweek, pgames, plock, popt, pq⟩ := p
  simp only at hgames hoptpair hlock hq ⊢
  simp [hgames, hoptpair, hlock.symm, hq.symm]

/-- Concrete player whose stored `optimalGame` is stale (`none` although a
played positive game exists); otherwise unlocked and flag-free. -/
def cexP2 : PlayerWeekLockIn :=
  { sleeperId := "s", playerName := "s", nbaTeam := "BOS", position := "PG", week := 1,
    games := [{ date := 5, fpts := 12, opponent := "x", isPlayed := true, isLocked := false }],
    lockedGame := none, optimalGame := none, lockQuality := none }

/-- Concrete week-1 matchup holding only `cexP2`. -/
def cexM2 : WeekMatchup :=
  { week := 1, seasonYear := "2025-26", myTeamRosterId := 1, opponentRosterId := 2,
    myTeamName := "A", opponentTeamName := "B",
    myPlayers := [cexP2], opponentPlayers := [], myTotalLocked := 0,
    opponentTotalLocked := 0, myOptimalTotal := 0, opponentOptimalTotal := 0,
    result := .pending }

/-- Concrete storage holding only `cexM2`. -/
def cexSt2 : MatchupsStorage :=
  { version := 1, config := { myTeamRosterId := some 1 }, history := [cexM2],
    lastUpdated := "t" }

/-- The decision locking `cexP2`'s played game. -/
def cexD2 : LockInDecision :=
  { gameDate := 5, gameFpts := 12, lockedAt := "t", isAutoLocked := false }

/-- C2 counterexample: `cexP2` is unlocked and has a played game, yet locking
that game and immediately clearing the lock does not restore the pre-lock
record — `recordLock` recomputes the stale `optimalGame` field (a non-
timestamp field) and `clearLock` does not reset it. -/
theorem recordLock_clearLock_not_inverse :
    cexP2.lockedGame = none ∧
    cexP2.games.any (·.isPlayed) = true ∧
    (((clearLock (recordLock cexSt2 1 "s" true cexD2) 1 "s" true).history.get? 0).bind
      (fun m2 => m2.myPlayers.get? 0)) ≠ some cexP2 := by decide

/-- C2 amended: if the player's pre-lock state is canonical — no lock, no
`isLocked` flags, no lock quality, and an `optimalGame` pair that matches the
recomputation from its games — then `recordLock` followed immediately by
`clearLock` returns that player's `PlayerWeekLockIn` to a state equal to the
pre-lock state. -/
theorem recordLock_clearLock_roundtrip (st : MatchupsStorage) (w : ℤ) (sid : String)
    (side : Bool) (d : LockInDecision) (k j : ℕ) (m : WeekMatchup) (p : PlayerWeekLockIn)
    (hk : st.history.get? k = some m) (hw : m.week = w)
    (hj : (rosterOf m side).get? j = some p)
    (hsid : p.sleeperId = sid) (hlock : p.lockedGame = none)
    (hflags : ∀ g ∈ p.games, g.isLocked = false) (hq : p.lockQuality = none)
    (hopt : p.optimalGame = optimalPairOf p.games) :
    (((clearLock (recordLock st w sid side d) w sid side).history.get? k).bind
      (fun m2 => (rosterOf m2 side).get? j)) = some p := by
  have hplayer := clearLock_recordLock_player sid d p hsid hlock hflags hq hopt
  simp only [recordLock, clearLock]
  rw [List.get?_map, List.get?_map, hk]
  simp only [Option.map_some', Option.some_bind]
  cases side
  · simp only [rosterOf, Bool.false_eq_true, if_false, ite_false] at hj
    simp [recordLockMatchup, clearLockMatchup, setRoster, rosterOf, hw,
      List.get?_map, hj, hplayer]
    exact ⟨p, by rw [← List.get?_eq_getElem?]; exact hj, hplayer⟩
  · simp only [rosterOf, if_true, ite_true] at hj
    simp [recordLockMatchup, clearLockMatchup, setRoster, rosterOf, hw,
      List.get?_map, hj, hplayer]
    exact ⟨p, by rw [← List.get?_eq_getElem?]; exact hj, hplayer⟩

/-- `cexP2` with its `optimalGame` in sync with its games. -/
def cexP2ok : PlayerWeekLockIn :=
  { cexP2 with optimalGame := some { date := 5, fpts := 12 } }

/-- `cexM2` holding the canonical player. -/
def cexM2ok : WeekMatchup :=
  { cexM2 with myPlayers := [cexP2ok] }

/-- Storage holding only `cexM2ok`. -/
def cexSt2ok : MatchupsStorage :=
  { cexSt2 with history := [cexM2ok] }

/-- Concrete instance of `recordLock_clearLock_roundtrip`. -/
theorem recordLock_clearLock_roundtrip_witness :
    (((clearLock (recordLock cexSt2ok 1 "s" true cexD2) 1 "s" true).history.get? 0).bind
      (fun m2 => (rosterOf m2 true).get? 0)) = some cexP2ok :=
  recordLock_clearLock_roundtrip cexSt2ok 1 "s" true cexD2 0 0 cexM2ok cexP2ok
    (by decide) (by decide) (by decide) (by decide) (by decide) (by decide)
    (by decide) (by decide)

/-! ## C4: verdict policy -/

/-- The claim's verdict table taken literally: rule 5 compares the current
best score against 85 percent of the ceiling and rule 6 against 60 percent of
the ceiling, with no positivity guard on the ceiling. -/
def claimVerdictC4 (gamesRemaining gamesPlayed : ℕ)
    (chanceToImprove currentBest ceiling : ℚ) : Recommendation :=
  if gamesRemaining = 0 then .LOCK
  else if gamesPlayed = 0 then .WAIT
  else if chanceToImprove < 30 then .LOCK
  else if 55 < chanceToImprove then .WAIT
  else if 85 / 100 * ceiling ≤ currentBest then .LOCK
  else if currentBest < 60 / 100 * ceiling ∧ 2 ≤ gamesRemaining then .WAIT
  else .HOLD

/-- The amended verdict table: identical to the claim's, except that the two
ceiling rules are evaluated on the guarded percentage
`if 0 < ceiling then currentBest / ceiling * 100 else 0` — so with a
non-positive ceiling rule 5 never fires and rule 6 fires whenever at least
two games remain. -/
def amendedVerdictC4 (gamesRemaining gamesPlayed : ℕ)
    (chanceToImprove currentBest ceiling : ℚ) : Recommendation :=
  let currentVsCeiling := if 0 < ceiling then currentBest / ceiling * 100 else 0
  if gamesRemaining = 0 then .LOCK
  else if gamesPlayed = 0 then .WAIT
  else if chanceToImprove < 30 then .LOCK
  else if 55 < chanceToImprove then .WAIT
  else if 85 ≤ currentVsCeiling then .LOCK
  else if currentVsCeiling < 60 ∧ 2 ≤ gamesRemaining then .WAIT
  else .HOLD

/-- The verdict block's recommendation is the amended table. -/
theorem verdictOf_fst (g p : ℕ) (ci cb ceil : ℚ) :
    (verdictOf g p ci cb ceil).1 = amendedVerdictC4 g p ci cb ceil := by
  simp only [verdictOf, amendedVerdictC4]
  split_ifs <;> rfl

/-- With no games remaining the verdict block's confidence is 100. -/
theorem verdictOf_conf_noneLeft (g p : ℕ) (ci cb ceil : ℚ) (h : g = 0) :
    (verdictOf g p ci cb ceil).2 = 100 := by
  subst h
  rfl

/-- With games remaining but none played the confidence is 100. -/
theorem verdictOf_conf_nonePlayed (g p : ℕ) (ci cb ceil : ℚ)
    (hg : 0 < g) (hp : p = 0) :
    (verdictOf g p ci cb ceil).2 = 100 := by
  subst hp
  unfold verdictOf
  rw [if_neg (by omega : ¬ g = 0)]
  rfl

/-- A HOLD verdict always carries confidence 50. -/
theorem verdictOf_conf_hold (g p : ℕ) (ci cb ceil : ℚ)
    (h : (verdictOf g p ci cb ceil).1 = .HOLD) :
    (verdictOf g p ci cb ceil).2 = 50 := by
  simp only [verdictOf] at h ⊢
  split_ifs at h ⊢ <;> rfl

/-- C4 amended: `analyzeThisWeek` decides its verdict by the claim's ordered
rules with the two ceiling comparisons replaced by the guarded percentage
(0 when the ceiling is not positive); the confidence is 100 for the two
forced rules and 50 for HOLD. -/
theorem analyzeThisWeek_verdict_policy (player : PlayerAnalytics) (cw : ℤ)
    (g : ℕ) (so : Option ℚ) :
    (analyzeThisWeek player cw g so).recommendation =
      amendedVerdictC4 (analyzeThisWeek player cw g so).gamesRemaining
        (analyzeThisWeek player cw g so).gamesPlayed
        (analyzeThisWeek player cw g so).chanceToImprove
        (analyzeThisWeek player cw g so).currentBest
        (analyzeThisWeek player cw g so).realisticCeiling ∧
    (g = 0 → (analyzeThisWeek player cw g so).confidence = 100) ∧
    (0 < g → (analyzeThisWeek player cw g so).gamesPlayed = 0 →
      (analyzeThisWeek player cw g so).confidence = 100) ∧
    ((analyzeThisWeek player cw g so).recommendation = .HOLD →
      (analyzeThisWeek player cw g so).confidence = 50) :=
  ⟨verdictOf_fst _ _ _ _ _,
   fun h => verdictOf_conf_noneLeft _ _ _ _ _ h,
   fun hg hp => verdictOf_conf_nonePlayed _ _ _ _ _ hg hp,
   fun h => verdictOf_conf_hold _ _ _ _ _ h⟩

/-- Player exhibiting a zero realistic ceiling in mid-decision territory:
one standout game three weeks back, flat zero scores since, a played zero
this week, four games remaining. -/
def cexC4Player : PlayerAnalytics :=
  { player := "P", sleeper_id := "s1", nba_team := "BOS", fantasy_team := "T",
    position := "PG", expectedLockin := 0, weeklyStats := [],
    games := [mkGameRow 5 50 10,
      mkGameRow 6 60 0, mkGameRow 6 61 0, mkGameRow 7 70 0, mkGameRow 7 71 0,
      mkGameRow 8 80 0, mkGameRow 8 81 0, mkGameRow 9 90 0, mkGameRow 9 91 0,
      mkGameRow 10 100 0] }

/-- C4 counterexample: for `cexC4Player` at week 10 with 4 games remaining
the engine's cumulative improvement chance is 34.39 (between the 30 and 55
cutoffs), the realistic ceiling is 0 and the current best is 0; the claim's
rule 5 (`currentBest ≥ 85% of ceiling`, i.e. `0 ≥ 0`) fires and demands
LOCK, but `analyzeThisWeek` returns WAIT. -/
theorem analyzeThisWeek_claim_table_fails :
    (analyzeThisWeek cexC4Player 10 4 none).recommendation = .WAIT ∧
    claimVerdictC4 (analyzeThisWeek cexC4Player 10 4 none).gamesRemaining
      (analyzeThisWeek cexC4Player 10 4 none).gamesPlayed
      (analyzeThisWeek cexC4Player 10 4 none).chanceToImprove
      (analyzeThisWeek cexC4Player 10 4 none).currentBest
      (analyzeThisWeek cexC4Player 10 4 none).realisticCeiling = .LOCK := by
  constructor <;> with_unfolding_all decide

/-- Concrete instance of `analyzeThisWeek_verdict_policy` with no games
remaining. -/
theorem analyzeThisWeek_verdict_policy_witness :
    (analyzeThisWeek cexC4Player 10 0 none).recommendation =
      amendedVerdictC4 (analyzeThisWeek cexC4Player 10 0 none).gamesRemaining
        (analyzeThisWeek cexC4Player 10 0 none).gamesPlayed
        (analyzeThisWeek cexC4Player 10 0 none).chanceToImprove
        (analyzeThisWeek cexC4Player 10 0 none).currentBest
        (analyzeThisWeek cexC4Player 10 0 none).realisticCeiling ∧
    (analyzeThisWeek cexC4Player 10 0 none).confidence = 100 :=
  ⟨(analyzeThisWeek_verdict_policy cexC4Player 10 0 none).1,
   (analyzeThisWeek_verdict_policy cexC4Player 10 0 none).2.1 rfl⟩

/-! ## C3: sync idempotence -/

/-- A rebuilt-with-lock record keeps the fresh data's sleeper id. -/
theorem rebuildWithLock_sleeperId (pd : PlayerAnalytics) (week : ℤ)
    (sched : Option NBASchedule) (lg : Option LockInDecision) :
    (rebuildWithLock pd week sched lg).sleeperId = pd.sleeper_id := by
  cases lg <;> rfl

/-- A rebuilt-with-lock record stores exactly the lock it was given. -/
theorem rebuildWithLock_lockedGame (pd : PlayerAnalytics) (week : ℤ)
    (sched : Option NBASchedule) (lg : Option LockInDecision) :
    (rebuildWithLock pd week sched lg).lockedGame = lg := by
  cases lg <;> rfl

/-- Rebuilding from the same fresh data with the same preserved lock is a
fixpoint. -/
theorem rebuildWithLock_fixpoint (pd : PlayerAnalytics) (week : ℤ)
    (sched : Option NBASchedule) (lg : Option LockInDecision) :
    rebuildWithLock pd week sched (rebuildWithLock pd week sched lg).lockedGame =
      rebuildWithLock pd week sched lg := by
  cases lg <;> rfl

/-- The per-player sync step is idempotent. -/
theorem syncOnePlayer_idem (players : List PlayerAnalytics) (week : ℤ)
    (sched : Option NBASchedule) (team : String) (lp : PlayerWeekLockIn) :
    syncOnePlayer players week sched team (syncOnePlayer players week sched team lp) =
      syncOnePlayer players week sched team lp := by
  cases hfind : players.find? (fun pd =>
      decide (pd.sleeper_id = lp.sleeperId ∧ pd.fantasy_team = team)) with
  | none =>
    have hval : syncOnePlayer players week sched team lp = lp := by
      unfold syncOnePlayer
      rw [hfind]
    rw [hval]
    exact hval
  | some pd =>
    have hpred := List.find?_some hfind
    have hsid : pd.sleeper_id = lp.sleeperId := (of_decide_eq_true hpred).1
    have hval : syncOnePlayer players week sched team lp =
        rebuildWithLock pd week sched lp.lockedGame := by
      unfold syncOnePlayer
      rw [hfind]
    rw [hval]
    have hb : (rebuildWithLock pd week sched lp.lockedGame).sleeperId = lp.sleeperId := by
      rw [rebuildWithLock_sleeperId]
      exact hsid
    have hfind2 : players.find? (fun pd2 =>
        decide (pd2.sleeper_id = (rebuildWithLock pd week sched lp.lockedGame).sleeperId ∧
          pd2.fantasy_team = team)) = some pd := by
      rw [hb]
      exact hfind
    unfold syncOnePlayer
    rw [hfind2]
    exact rebuildWithLock_fixpoint pd week sched lp.lockedGame

/-- C3: the sync transition is idempotent — applying
`syncMatchupWithPlayerData` twice with the same fresh player data and
schedule feed gives the same record as applying it once. -/
theorem syncMatchupWithPlayerData_idempotent (m : WeekMatchup)
    (players : List PlayerAnalytics) (sched : Option NBASchedule) :
    syncMatchupWithPlayerData (syncMatchupWithPlayerData m players sched) players sched =
      syncMatchupWithPlayerData m players sched := by
  obtain ⟨wk, sy, mr, orr, mtn, otn, mp, op, mtl, otl, mot, oot, res⟩ := m
  simp only [syncMatchupWithPlayerData, List.map_map]
  have hmy : mp.map (syncOnePlayer players wk sched mtn ∘ syncOnePlayer players wk sched mtn)
      = mp.map (syncOnePlayer players wk sched mtn) :=
    List.map_congr_left (fun a _ => syncOnePlayer_idem players wk sched mtn a)
  have hop : op.map (syncOnePlayer players wk sched otn ∘ syncOnePlayer players wk sched otn)
      = op.map (syncOnePlayer players wk sched otn) :=
    List.map_congr_left (fun a _ => syncOnePlayer_idem players wk sched otn a)
  rw [hmy, hop]
